import Mathlib

/-!
Verification development for the gypsum-actions version indexer
(`src/index-project.js`).

The script is a single linear orchestration over remote object storage and
an issue tracker.  We embed it shallowly: remote storage is a finite
association list from keys to JSON values, every remote effect the run
performs is recorded as an `Event` in program order, and the run itself is
a pure function from an environment (storage contents, clock, pagination
behaviour, tracker responses) to an event trace, an optional error message
and a process exit code.  Machine times are modelled as `Int` epoch
milliseconds.
-/

namespace Gypsum

/-- JSON values, as produced by parsing the stored objects. -/
inductive JVal where
  | null
  | bool (b : Bool)
  | num (n : Int)
  | str (s : String)
  | arr (xs : List JVal)
  | obj (fs : List (String × JVal))

/-- Field access on a JSON value: `j.f` in JS is the field when `j` is an
object carrying it, and is not a usable value otherwise (missing field or
non-object access yields `undefined`/a throw at the use sites we model). -/
def JVal.getField : JVal → String → Option JVal
  | .obj fs, k => fs.lookup k
  | _, _ => none

/-- Remote object storage: a finite map from keys to parsed JSON bodies. -/
def Storage : Type := List (String × JVal)

/-- Modelled from the spec: `utils.js` is not under `src/`.  `getJson`
fetches the object at a key and parses it, yielding null/`none` when the
object is absent (spec §6: storage supports get of individual objects). -/
def getJson (st : Storage) (k : String) : Option JVal :=
  List.lookup k st

/-- Modelled from the spec: `internal.js` is not under `src/`.  The spec
(§6) lists seven well-known key families parameterized by project and
version; the concrete formats are chosen as distinct representatives.
Lock path for a project version. -/
def lock (p v : String) : String := "lock/" ++ p ++ "/" ++ v

/-- Modelled from the spec: expiry-info path (see `lock`). -/
def expiry (p v : String) : String := "expiry/" ++ p ++ "/" ++ v

/-- Modelled from the spec: version-metadata path (see `lock`). -/
def versionMetadata (p v : String) : String := "meta/" ++ p ++ "/" ++ v

/-- Modelled from the spec: aggregated-metadata path (see `lock`). -/
def aggregated (p v : String) : String := "aggregated/" ++ p ++ "/" ++ v

/-- Modelled from the spec: per-project permissions path (see `lock`). -/
def permissions (p : String) : String := "permissions/" ++ p

/-- Modelled from the spec: persistent-latest pointer path (see `lock`). -/
def latestPersistent (p : String) : String := "latest-persistent/" ++ p

/-- Modelled from the spec: all-versions latest pointer path (see `lock`). -/
def latestAll (p : String) : String := "latest-all/" ++ p

/-- JS `Date#toISOString` on an epoch-millisecond instant, abstracted as an
injective textual encoding; the claims depend only on which instant is
encoded, never on the concrete calendar rendering. -/
def toISOString (t : Int) : String := "epoch-ms:" ++ toString t

/-- Modelled from the spec: `utils.formatLatest` is not under `src/`.  A
latest pointer records which version is current plus the `index_time`
logical clock (spec §3). -/
def formatLatest (v : String) (i : Int) : JVal :=
  .obj [("version", .str v), ("index_time", .num i)]

/-- Body of the follow-up "purge project" ticket created for an expiring
version. -/
structure TicketBody where
  project : String
  version : String
  mode : String
  delete_after : Int
deriving DecidableEq, Repr

/-- The version metadata document built by the run. -/
structure VersionMeta where
  upload_time : String
  index_time : String
  expiry_time : Option String := none
  expiry_job_id : Option Int := none
deriving DecidableEq, Repr

/-- Serialization of the version metadata to the JSON object written to
storage; the optional expiry fields appear only when set. -/
def metaToJson (m : VersionMeta) : JVal :=
  .obj ([("upload_time", .str m.upload_time), ("index_time", .str m.index_time)]
    ++ (match m.expiry_time with
        | some e => [("expiry_time", .str e)]
        | none => [])
    ++ (match m.expiry_job_id with
        | some n => [("expiry_job_id", .num n)]
        | none => []))

/-- Remote effects of a run, in program order.  `put` marks a `putJson`
being issued (pushed onto the `writes` array); `awaitWrites` is the
`Promise.all(writes)` barrier at which all pending puts have completed;
`deleteObj` is the lock deletion; `comment` is the failure comment POST. -/
inductive Event where
  | put (k : String) (v : JVal)
  | createTicket (t : TicketBody)
  | awaitWrites
  | deleteObj (k : String)
  | closeIssue
  | comment (msg : String)

/-- The job parameters parsed from the issue body file. -/
structure Params where
  project : String
  version : String
  timestamp : Int
  overwrite_permissions : Bool
  permissions : JVal

/-- The environment of one run: initial storage contents, the clock, the
storage listing page size (pages hold `pageCap + 1` keys, S3 pages being
nonempty), the status code a failed `headObject` reports per missing key,
the issue-tracker response to the expiry-ticket POST, whether the
issue-close call at the end of the try block throws, and whether the
failure-comment POST itself throws. -/
structure Env where
  storage : Storage
  now : Int
  pageCap : Nat
  headStatus : String → Int
  ticketStatus : Int
  ticketNumber : Int
  closeIssueFails : Bool
  commentPostFails : Bool

/-- The `Response#ok` flag of the fetch API: the status is in the 2xx range. -/
def resOk (s : Int) : Bool := 200 ≤ s && s < 300

/-- Startup configuration state: whether the R2 credentials and bot token
environment variables are set, and `process.argv.length`. -/
structure Config where
  hasR2Credentials : Bool
  hasBotToken : Bool
  argc : Nat
deriving DecidableEq, Repr

/-- The guards before the `try` block: missing credentials, missing token
or an argument count other than four abort the process before the core
run. -/
def setupOk (c : Config) : Bool :=
  c.hasR2Credentials && c.hasBotToken && ((c.argc : Int) - 2 == 4)

/-- Error message thrown when the lock head request fails. -/
def lockFailMsg : String := "failed to acquire the lock file for this project version"

/-- Error message thrown when the expiry-ticket POST is not ok. -/
def ticketFailMsg : String := "failed to post an expiry job"

/-- Error message thrown when an existing latest pointer lacks a numeric
index_time. -/
def badLatestMsg : String := "latest file should contain an index_time number"

/-- Error message used by the model for every non-numeric expires_in.  In
JS a string or missing expires_in makes `index_time + expires_in` NaN or
an unparsable string, so `new Date(...).toISOString()` throws a RangeError
before any ticket is created; a boolean or null operand would instead be
coerced to 1 or 0 and the run would proceed.  The model abstracts the
whole non-numeric family as this failure; no claim's hypotheses reach the
coerced cases. -/
def badExpiryMsg : String := "invalid time value"

/-- Error message when the head request on the permissions path fails with
a status other than 404 (the caught error is rethrown). -/
def permHeadFailMsg : String := "failed to inspect the permissions file"

/-- Modelled from the spec: `utils.closeIssue` is not under `src/`.  It is
a tracker call (spec §6) and, like every remote call, can fail (§5, §7);
this is the message of that failure, thrown inside the try block after the
lock has already been deleted. -/
def closeFailMsg : String := "failed to close the issue"

/-- The expiry block (lines 74-113): read the expiry info object; when it
exists, compute the expiry instant, POST the follow-up purge ticket, fail
unless the response is ok, and record expiry_time and expiry_job_id in the
version metadata.  Returns the tracker events plus either the error or the
`has_expiry` flag and the metadata document. -/
def expiryStep (env : Env) (body : Params) (index_time : Int) :
    List Event × Except String (Bool × VersionMeta) :=
  let base : VersionMeta :=
    { upload_time := toISOString body.timestamp, index_time := toISOString index_time }
  match getJson env.storage (expiry body.project body.version) with
  | none => ([], .ok (false, base))
  | some .null => ([], .ok (false, base))
  | some info =>
    match info.getField "expires_in" with
    | some (.num d) =>
      let expired := index_time + d
      let t : TicketBody :=
        { project := body.project, version := body.version
          mode := "expiry", delete_after := expired }
      if resOk env.ticketStatus then
        ([Event.createTicket t],
          .ok (true, { base with
            expiry_time := some (toISOString expired)
            expiry_job_id := some env.ticketNumber }))
      else
        ([Event.createTicket t], .error ticketFailMsg)
    | _ => ([], .error badExpiryMsg)

/-- JS `String#startsWith` (and the S3 prefix condition) on the
character sequences of the two strings. -/
def strStartsWith (s pfx : String) : Bool := pfx.data.isPrefixOf s.data

/-- JS `String#endsWith` on the character sequences of the two
strings. -/
def strEndsWith (s suf : String) : Bool := suf.data.isSuffixOf s.data

/-- Keys currently in storage that fall under a prefix, in listing order
(the enumeration order of the storage map stands in for the lexicographic
order of S3 listings; no claim depends on which total order it is). -/
def keysUnder (st : Storage) (pfx : String) : List String :=
  (st.map Prod.fst).filter (fun k => strStartsWith k pfx)

/-- Page splitter: peel off pages of `n + 1` keys while fuel remains (S3
pages are nonempty); called with fuel `≥` the key count, so the
fuel-exhausted arm that dumps the remainder as one page is never hit. -/
def chunkGo (n : Nat) : Nat → List String → List (List String)
  | _, [] => []
  | 0, x :: xs => [x :: xs]
  | fuel + 1, x :: xs => (x :: xs.take n) :: chunkGo n fuel (xs.drop n)

/-- One S3 listing splits the keys under the prefix into successive pages
of `n + 1` keys (the final page possibly shorter); the loop walks them via
the continuation token. -/
def chunkPages (n : Nat) (xs : List String) : List (List String) :=
  chunkGo n xs.length xs

/-- The body of the aggregation loop (lines 120-137): for each page, every
key ending in ".json" is fetched; the fetched documents of all pages are
concatenated in order.  A key just listed is present, so the `.getD .null`
default never fires (and matches `getJson` resolving to null regardless). -/
def aggregatePages (st : Storage) : List (List String) → List JVal
  | [] => []
  | pg :: rest =>
    (pg.filter (fun k => strEndsWith k ".json")).map
        (fun k => (getJson st k).getD .null)
      ++ aggregatePages st rest

/-- The document written to the aggregated path: the resolved fetches of
all ".json" keys found across the paginated listing of
`project + "/" + version + "/"`. -/
def aggregationResult (st : Storage) (n : Nat) (p v : String) : JVal :=
  .arr (aggregatePages st (chunkPages n (keysUnder st (p ++ "/" ++ v ++ "/"))))

/-- The permissions block (lines 141-162): when `overwrite_permissions` is
unset, head the permissions path; a 404 failure turns overwriting on, any
other failure is rethrown; finally the supplied permissions are written
exactly when overwriting is on. -/
def permStep (env : Env) (body : Params) : Except String (List Event) :=
  let permpath := permissions body.project
  if body.overwrite_permissions then
    .ok [Event.put permpath body.permissions]
  else
    match List.lookup permpath env.storage with
    | some _ => .ok []
    | none =>
      if env.headStatus permpath == 404 then
        .ok [Event.put permpath body.permissions]
      else
        .error permHeadFailMsg

/-- The function `fill_latest` (lines 166-184): read the pointer at key `l`; write the
candidate `formatLatest v i` when the pointer is absent (or JSON null,
which `== null` also accepts) or its recorded `index_time` is strictly
less than `i`; fail when an existing pointer has no numeric `index_time`;
otherwise leave the pointer untouched. -/
def fill_latest (st : Storage) (l : String) (v : String) (i : Int) :
    Except String (Option Event) :=
  match List.lookup l st with
  | none => .ok (some (Event.put l (formatLatest v i)))
  | some .null => .ok (some (Event.put l (formatLatest v i)))
  | some lat_info =>
    match lat_info.getField "index_time" with
    | some (.num t) =>
      if t < i then .ok (some (Event.put l (formatLatest v i))) else .ok none
    | _ => .error badLatestMsg

/-- The latest-pointer block (lines 164-198): the persistent pointer gets
the placeholder candidate `("", -1)` when the version expires and the real
candidate otherwise; the all-versions pointer always gets the real
candidate.  The persistent pointer is processed first. -/
def latestStep (st : Storage) (p v : String) (i : Int) (has_expiry : Bool) :
    Except String (List Event) :=
  match (match has_expiry with
         | true => fill_latest st (latestPersistent p) "" (-1)
         | false => fill_latest st (latestPersistent p) v i) with
  | .error msg => .error msg
  | .ok e1 =>
    match fill_latest st (latestAll p) v i with
    | .error msg => .error msg
    | .ok e2 => .ok (e1.toList ++ e2.toList)

/-- The body of the `try` block (lines 56-209): lock check, expiry
handling, version-metadata and aggregation writes, permissions,
latest-pointer updates, the `Promise.all` barrier, lock deletion, and
closing the issue.  The close at line 209 is a tracker call that can
itself throw — after the lock deletion at line 204 has completed.
Returns the event trace together with the error message when some step
threw. -/
def coreRun (env : Env) (body : Params) : List Event × Option String :=
  let lockpath := lock body.project body.version
  if (List.lookup lockpath env.storage).isNone then
    ([], some lockFailMsg)
  else
    match expiryStep env body env.now with
    | (evs1, .error msg) => (evs1, some msg)
    | (evs1, .ok (has_expiry, version_meta)) =>
      let evs2 := evs1 ++
        [Event.put (versionMetadata body.project body.version) (metaToJson version_meta),
         Event.put (aggregated body.project body.version)
           (aggregationResult env.storage env.pageCap body.project body.version)]
      match permStep env body with
      | .error msg => (evs2, some msg)
      | .ok permEvs =>
        match latestStep env.storage body.project body.version env.now has_expiry with
        | .error msg => (evs2 ++ permEvs, some msg)
        | .ok latEvs =>
          if env.closeIssueFails then
            (evs2 ++ permEvs ++ latEvs ++
              [Event.awaitWrites, Event.deleteObj lockpath], some closeFailMsg)
          else
            (evs2 ++ permEvs ++ latEvs ++
              [Event.awaitWrites, Event.deleteObj lockpath, Event.closeIssue], none)

/-- The whole process: `process.exitCode = 1` up front; the setup guards
throw (leaving the nonzero code) before the `try`; on a caught error the
message is POSTed as a comment, and if that POST itself throws the final
`process.exitCode = 0` at line 224 is never reached. -/
def runProcess (c : Config) (env : Env) (body : Params) : List Event × Int :=
  if setupOk c then
    match coreRun env body with
    | (tr, none) => (tr, 0)
    | (tr, some msg) =>
      if env.commentPostFails then (tr, 1) else (tr ++ [Event.comment msg], 0)
  else ([], 1)

/-! Concrete inputs used by the witness theorems. -/

/-- A run environment with empty storage. -/
def emptyEnv : Env :=
  { storage := [], now := 50, pageCap := 0, headStatus := fun _ => 404
    ticketStatus := 201, ticketNumber := 7, closeIssueFails := false
    commentPostFails := false }

/-- A sample job-parameter payload. -/
def sampleBody : Params :=
  { project := "p", version := "v", timestamp := 5
    overwrite_permissions := false, permissions := .obj [("owners", .arr [.str "a"])] }

/-! Helper lemmas shared by the claim theorems. -/

/-- An absent pointer is always (over)written by `fill_latest`. -/
theorem fill_latest_absent (st : Storage) (l v : String) (i : Int)
    (h : List.lookup l st = none) :
    fill_latest st l v i = .ok (some (Event.put l (formatLatest v i))) := by
  simp [fill_latest, h]

/-- An existing pointer with a numeric index_time is overwritten by
`fill_latest` exactly when that time is strictly below the candidate. -/
theorem fill_latest_present (st : Storage) (l v : String) (i : Int)
    (j : JVal) (t : Int) (hj : List.lookup l st = some j)
    (ht : j.getField "index_time" = some (.num t)) :
    fill_latest st l v i =
      .ok (if t < i then some (Event.put l (formatLatest v i)) else none) := by
  unfold fill_latest
  rw [hj]
  cases j with
  | null => simp [JVal.getField] at ht
  | obj fs =>
    dsimp only
    rw [ht]
    by_cases hlt : t < i <;> simp [hlt]
  | bool b => simp [JVal.getField] at ht
  | num n => simp [JVal.getField] at ht
  | str s => simp [JVal.getField] at ht
  | arr xs => simp [JVal.getField] at ht

/-- Every event `fill_latest` can emit is a put of its own key with its own
candidate document. -/
theorem fill_latest_events (st : Storage) (l v : String) (i : Int)
    (e : Option Event) (h : fill_latest st l v i = .ok e) :
    ∀ ev ∈ e.toList, ev = Event.put l (formatLatest v i) := by
  unfold fill_latest at h
  intro ev hev
  cases hl : List.lookup l st with
  | none =>
    rw [hl] at h
    cases h
    simpa using hev
  | some j =>
    rw [hl] at h
    cases j with
    | null =>
      cases h
      simpa using hev
    | obj fs =>
      dsimp only at h
      cases hf : JVal.getField (.obj fs) "index_time" with
      | none => rw [hf] at h; cases h
      | some w =>
        rw [hf] at h
        cases w with
        | num t =>
          dsimp only at h
          by_cases hlt : t < i
          · rw [if_pos hlt] at h
            cases h
            simpa using hev
          · rw [if_neg hlt] at h
            cases h
            simp at hev
        | null => cases h
        | bool b => cases h
        | str s => cases h
        | arr xs => cases h
        | obj gs => cases h
    | bool b => cases h
    | num n => cases h
    | str s => cases h
    | arr xs => cases h

/-- The all-versions pointer key never coincides with the persistent
pointer key. -/
theorem latestAll_ne_latestPersistent (p : String) :
    latestAll p ≠ latestPersistent p := by
  intro h
  have h2 := congrArg String.length h
  rw [latestAll, latestPersistent, String.length_append, String.length_append] at h2
  have e1 : String.length "latest-all/" = 11 := rfl
  have e2 : String.length "latest-persistent/" = 18 := rfl
  rw [e1, e2] at h2
  omega

/-- C1: when the lock object is absent the head request on it fails, the run
aborts with the lock-acquisition error, and the trace is empty: nothing is
written and the lock is not deleted. -/
theorem lock_absent_aborts_without_writes (env : Env) (body : Params)
    (h : List.lookup (lock body.project body.version) env.storage = none) :
    coreRun env body = ([], some lockFailMsg) := by
  simp [coreRun, h]

/-- Witness for C1 at the empty storage. -/
theorem lock_absent_aborts_without_writes_witness :
    List.lookup (lock sampleBody.project sampleBody.version) emptyEnv.storage = none ∧
      coreRun emptyEnv sampleBody = ([], some lockFailMsg) :=
  ⟨rfl, lock_absent_aborts_without_writes emptyEnv sampleBody rfl⟩

/-- C2: a latest-pointer update overwrites the pointer exactly when the
stored numeric index_time is strictly less than the candidate's, leaves it
unchanged on an equal or greater stored index_time, and always writes the
candidate when no pointer object exists. -/
theorem fill_latest_overwrite_iff (st : Storage) (l v : String) (i : Int) :
    (List.lookup l st = none →
      fill_latest st l v i = .ok (some (Event.put l (formatLatest v i)))) ∧
    (∀ j t, List.lookup l st = some j → j.getField "index_time" = some (.num t) →
      fill_latest st l v i =
        .ok (if t < i then some (Event.put l (formatLatest v i)) else none)) :=
  ⟨fill_latest_absent st l v i,
   fun j t hj ht => fill_latest_present st l v i j t hj ht⟩

/-- Witness for C2: absent pointer is written; stored time 3 yields a write
against candidate 4 and no write against candidates 3 and 2. -/
theorem fill_latest_overwrite_iff_witness :
    (List.lookup "latest-all/p" ([] : Storage) = none →
      fill_latest [] "latest-all/p" "v" 4 =
        .ok (some (Event.put "latest-all/p" (formatLatest "v" 4)))) ∧
    (∀ j t, List.lookup "latest-all/p" ([("latest-all/p", formatLatest "w" 3)] : Storage)
          = some j →
      j.getField "index_time" = some (.num t) →
      fill_latest [("latest-all/p", formatLatest "w" 3)] "latest-all/p" "v" 3 =
        .ok (if t < 3 then some (Event.put "latest-all/p" (formatLatest "v" 3)) else none)) :=
  ⟨(fill_latest_overwrite_iff [] "latest-all/p" "v" 4).1,
   (fill_latest_overwrite_iff [("latest-all/p", formatLatest "w" 3)] "latest-all/p" "v" 3).2⟩

/-- C6: the permissions block writes the supplied permissions exactly when
overwrite_permissions is set or the permissions object is absent and its
head request fails with 404; with overwrite_permissions unset and an
existing permissions object, nothing is written. -/
theorem permStep_write_iff (env : Env) (body : Params) :
    (permStep env body = .ok [Event.put (permissions body.project) body.permissions]
      ↔ (body.overwrite_permissions = true ∨
          (List.lookup (permissions body.project) env.storage = none ∧
            env.headStatus (permissions body.project) = 404))) ∧
    (body.overwrite_permissions = false →
      ∀ j, List.lookup (permissions body.project) env.storage = some j →
      permStep env body = .ok []) := by
  constructor
  · unfold permStep
    by_cases hov : body.overwrite_permissions
    · simp [hov]
    · simp only [hov, Bool.false_eq_true, if_false]
      cases hl : List.lookup (permissions body.project) env.storage with
      | none =>
        by_cases h4 : env.headStatus (permissions body.project) = 404 <;>
          simp [h4]
      | some w => simp
  · intro hov j hl
    simp [permStep, hov, hl]

/-- A run environment whose storage already holds a permissions object for
project "p". -/
def permEnv : Env :=
  { storage := [(permissions "p", JVal.obj [])], now := 50, pageCap := 0
    headStatus := fun _ => 404, ticketStatus := 201, ticketNumber := 7, closeIssueFails := false
    commentPostFails := false }

/-- Witness for C6: with overwrite unset, an existing permissions object is
kept; the iff instance holds at the same input. -/
theorem permStep_write_iff_witness :
    ((permStep permEnv sampleBody =
        .ok [Event.put (permissions sampleBody.project) sampleBody.permissions])
      ↔ (sampleBody.overwrite_permissions = true ∨
          (List.lookup (permissions sampleBody.project) permEnv.storage = none ∧
            permEnv.headStatus (permissions sampleBody.project) = 404))) ∧
    permStep permEnv sampleBody = .ok [] :=
  ⟨(permStep_write_iff permEnv sampleBody).1,
   (permStep_write_iff permEnv sampleBody).2 rfl (JVal.obj []) rfl⟩

/-- C3: for an expiring version the persistent-latest candidate is the
placeholder (empty version string, sentinel index_time -1): when the
persistent pointer is absent the placeholder put is among the emitted
events, and when any placeholder or real pointer (a stored numeric
index_time, which is -1 for the placeholder and a real clock value
otherwise) exists, no put on the persistent pointer key is emitted. -/
theorem expiring_version_placeholder (st : Storage) (p v : String) (i : Int) :
    (List.lookup (latestPersistent p) st = none →
      ∀ evs, latestStep st p v i true = .ok evs →
        Event.put (latestPersistent p) (formatLatest "" (-1)) ∈ evs) ∧
    (∀ j t, List.lookup (latestPersistent p) st = some j →
      j.getField "index_time" = some (.num t) → -1 ≤ t →
      ∀ evs, latestStep st p v i true = .ok evs →
        ∀ x, Event.put (latestPersistent p) x ∉ evs) := by
  have hstep : latestStep st p v i true =
      match fill_latest st (latestPersistent p) "" (-1) with
      | .error msg => .error msg
      | .ok e1 =>
        match fill_latest st (latestAll p) v i with
        | .error msg => .error msg
        | .ok e2 => .ok (e1.toList ++ e2.toList) := rfl
  constructor
  · intro h evs hevs
    rw [hstep, fill_latest_absent st (latestPersistent p) "" (-1) h] at hevs
    cases hall : fill_latest st (latestAll p) v i with
    | error m => rw [hall] at hevs; cases hevs
    | ok e2 =>
      rw [hall] at hevs
      cases hevs
      simp
  · intro j t hj ht hge evs hevs x hx
    have h1 : fill_latest st (latestPersistent p) "" (-1) = .ok none := by
      rw [fill_latest_present st (latestPersistent p) "" (-1) j t hj ht,
        if_neg (by omega)]
    rw [hstep, h1] at hevs
    cases hall : fill_latest st (latestAll p) v i with
    | error m => rw [hall] at hevs; cases hevs
    | ok e2 =>
      rw [hall] at hevs
      cases hevs
      have hput := fill_latest_events st (latestAll p) v i e2 hall
        (Event.put (latestPersistent p) x) (by simpa using hx)
      injection hput with hk _
      exact latestAll_ne_latestPersistent p hk.symm

/-- Storage holding only a real persistent pointer for project "p". -/
def pointerStore : Storage := [(latestPersistent "p", formatLatest "w" 3)]

/-- Witness for C3: on empty storage an expiring run emits the placeholder
put; with a real pointer of index_time 3 present, an expiring run emits no
put on the persistent pointer key. -/
theorem expiring_version_placeholder_witness :
    (List.lookup (latestPersistent "p") ([] : Storage) = none ∧
      latestStep ([] : Storage) "p" "v" 9 true =
        .ok [Event.put (latestPersistent "p") (formatLatest "" (-1)),
             Event.put (latestAll "p") (formatLatest "v" 9)] ∧
      Event.put (latestPersistent "p") (formatLatest "" (-1)) ∈
        [Event.put (latestPersistent "p") (formatLatest "" (-1)),
         Event.put (latestAll "p") (formatLatest "v" 9)]) ∧
    (List.lookup (latestPersistent "p") pointerStore = some (formatLatest "w" 3) ∧
      (formatLatest "w" 3).getField "index_time" = some (.num 3) ∧
      latestStep pointerStore "p" "v" 9 true =
        .ok [Event.put (latestAll "p") (formatLatest "v" 9)] ∧
      Event.put (latestPersistent "p") (formatLatest "" (-1)) ∉
        [Event.put (latestAll "p") (formatLatest "v" 9)]) :=
  ⟨⟨rfl, rfl,
    (expiring_version_placeholder ([] : Storage) "p" "v" 9).1 rfl
      [Event.put (latestPersistent "p") (formatLatest "" (-1)),
       Event.put (latestAll "p") (formatLatest "v" 9)] rfl⟩,
   ⟨rfl, rfl, rfl,
    (expiring_version_placeholder pointerStore "p" "v" 9).2
      (formatLatest "w" 3) 3 rfl rfl (by omega)
      [Event.put (latestAll "p") (formatLatest "v" 9)] rfl
      (formatLatest "" (-1))⟩⟩

/-- Evaluating `expiryStep` on an expiry object with a numeric expires_in: the purge
ticket is POSTed with delete_after = index_time + expires_in, and the
outcome is the enriched metadata on an ok response and the ticket error
otherwise. -/
theorem expiryStep_num (env : Env) (body : Params) (index_time : Int)
    (info : JVal) (d : Int)
    (hinfo : getJson env.storage (expiry body.project body.version) = some info)
    (hd : info.getField "expires_in" = some (.num d)) :
    expiryStep env body index_time =
      ([Event.createTicket
          { project := body.project, version := body.version
            mode := "expiry", delete_after := index_time + d }],
        if resOk env.ticketStatus then
          .ok (true,
            { upload_time := toISOString body.timestamp
              index_time := toISOString index_time
              expiry_time := some (toISOString (index_time + d))
              expiry_job_id := some env.ticketNumber })
        else .error ticketFailMsg) := by
  unfold expiryStep
  rw [hinfo]
  cases info with
  | null => simp [JVal.getField] at hd
  | obj fs =>
    dsimp only
    rw [hd]
    by_cases hok : resOk env.ticketStatus <;> simp [hok]
  | bool b => simp [JVal.getField] at hd
  | num n => simp [JVal.getField] at hd
  | str s => simp [JVal.getField] at hd
  | arr xs => simp [JVal.getField] at hd

/-- C7: when an expiry-info object with a numeric expires_in exists, the
purge ticket is created with body {project, version, mode: "expiry",
delete_after: index_time + expires_in}; on a 2xx response the version
metadata records expiry_time = index_time + expires_in and the tracker's
ticket number as expiry_job_id; on a non-2xx response the step, and with
the lock present the whole run, fails with the ticket error. -/
theorem expiry_ticket_and_metadata (env : Env) (body : Params)
    (info : JVal) (d : Int)
    (hinfo : getJson env.storage (expiry body.project body.version) = some info)
    (hd : info.getField "expires_in" = some (.num d)) :
    (expiryStep env body env.now).1 =
      [Event.createTicket
        { project := body.project, version := body.version
          mode := "expiry", delete_after := env.now + d }] ∧
    (resOk env.ticketStatus = true →
      (expiryStep env body env.now).2 =
        .ok (true,
          { upload_time := toISOString body.timestamp
            index_time := toISOString env.now
            expiry_time := some (toISOString (env.now + d))
            expiry_job_id := some env.ticketNumber })) ∧
    (resOk env.ticketStatus = false →
      (expiryStep env body env.now).2 = .error ticketFailMsg) ∧
    (∀ w, List.lookup (lock body.project body.version) env.storage = some w →
      resOk env.ticketStatus = false →
      (coreRun env body).2 = some ticketFailMsg) := by
  have hstep := expiryStep_num env body env.now info d hinfo hd
  refine ⟨by rw [hstep], fun hok => by rw [hstep]; simp [hok],
    fun hbad => by rw [hstep]; simp [hbad], fun w hw hbad => ?_⟩
  simp [coreRun, hw, hstep, hbad]

/-- A run environment whose storage holds the lock for p/v and an expiry
object with expires_in one day, and whose tracker rejects the POST. -/
def expiryEnvBad : Env :=
  { storage := [(lock "p" "v", JVal.obj []),
                (expiry "p" "v", JVal.obj [("expires_in", JVal.num 86400000)])]
    now := 50, pageCap := 0, headStatus := fun _ => 404
    ticketStatus := 500, ticketNumber := 7, closeIssueFails := false
    commentPostFails := false }

/-- Witness for C7 at a concrete expiring version whose ticket POST is
rejected with status 500. -/
theorem expiry_ticket_and_metadata_witness :
    getJson expiryEnvBad.storage (expiry sampleBody.project sampleBody.version) =
      some (JVal.obj [("expires_in", JVal.num 86400000)]) ∧
    (JVal.obj [("expires_in", JVal.num 86400000)]).getField "expires_in" =
      some (.num 86400000) ∧
    ((expiryStep expiryEnvBad sampleBody expiryEnvBad.now).1 =
      [Event.createTicket
        { project := sampleBody.project, version := sampleBody.version
          mode := "expiry", delete_after := expiryEnvBad.now + 86400000 }] ∧
    (resOk expiryEnvBad.ticketStatus = true →
      (expiryStep expiryEnvBad sampleBody expiryEnvBad.now).2 =
        .ok (true,
          { upload_time := toISOString sampleBody.timestamp
            index_time := toISOString expiryEnvBad.now
            expiry_time := some (toISOString (expiryEnvBad.now + 86400000))
            expiry_job_id := some expiryEnvBad.ticketNumber })) ∧
    (resOk expiryEnvBad.ticketStatus = false →
      (expiryStep expiryEnvBad sampleBody expiryEnvBad.now).2 =
        .error ticketFailMsg) ∧
    (∀ w, List.lookup (lock sampleBody.project sampleBody.version)
        expiryEnvBad.storage = some w →
      resOk expiryEnvBad.ticketStatus = false →
      (coreRun expiryEnvBad sampleBody).2 = some ticketFailMsg)) :=
  ⟨rfl, rfl,
   expiry_ticket_and_metadata expiryEnvBad sampleBody
     (JVal.obj [("expires_in", JVal.num 86400000)]) 86400000 rfl rfl⟩

/-- Any amount of fuel leaves the flattened pages equal to the key list. -/
theorem chunkGo_flatten (n : Nat) (fuel : Nat) (xs : List String) :
    (chunkGo n fuel xs).flatten = xs := by
  induction fuel generalizing xs with
  | zero => cases xs <;> simp [chunkGo]
  | succ fuel ih =>
    cases xs with
    | nil => simp [chunkGo]
    | cons x xs =>
      rw [chunkGo]
      simp only [List.flatten_cons, ih]
      simp [List.take_append_drop]

/-- The pages produced by the paginated listing flatten back to the full
key list: no key is dropped or duplicated by continuation-token paging. -/
theorem chunkPages_flatten (n : Nat) (xs : List String) :
    (chunkPages n xs).flatten = xs :=
  chunkGo_flatten n xs.length xs

/-- Walking the pages in order and fetching the ".json" keys of each page
is the same as filtering and fetching over the flattened key list. -/
theorem aggregatePages_eq_flatten (st : Storage) (pages : List (List String)) :
    aggregatePages st pages =
      (pages.flatten.filter (fun k => strEndsWith k ".json")).map
        (fun k => (getJson st k).getD .null) := by
  induction pages with
  | nil => rfl
  | cons pg rest ih =>
    simp [aggregatePages, ih, List.filter_append]

/-- C4: the aggregated blob contains exactly the fetched contents of the
keys under the prefix project/version/ that end in ".json", in listing
order, and nothing else; and any pagination of the listing (any splitting
of the key list into pages consumed via continuation tokens) yields that
same content, so every page contributes. -/
theorem aggregation_exact (st : Storage) (n : Nat) (p v : String) :
    aggregationResult st n p v =
      .arr (((keysUnder st (p ++ "/" ++ v ++ "/")).filter
          (fun k => strEndsWith k ".json")).map
        (fun k => (getJson st k).getD .null)) ∧
    (∀ pages : List (List String),
      pages.flatten = keysUnder st (p ++ "/" ++ v ++ "/") →
      aggregatePages st pages =
        ((keysUnder st (p ++ "/" ++ v ++ "/")).filter
            (fun k => strEndsWith k ".json")).map
          (fun k => (getJson st k).getD .null)) := by
  constructor
  · unfold aggregationResult
    rw [aggregatePages_eq_flatten, chunkPages_flatten]
  · intro pages hp
    rw [aggregatePages_eq_flatten, hp]

/-- Storage for the aggregation witness: a lock plus two ".json" objects
and one non-JSON object under the version prefix. -/
def aggStore : Storage :=
  [(lock "p" "v", JVal.obj []),
   ("p/v/a.json", JVal.num 1),
   ("p/v/b.txt", JVal.str "x"),
   ("p/v/c.json", JVal.num 2)]

/-- Witness for C4: with page size one, the aggregated blob holds exactly
the two ".json" documents, and the three-page pagination gives the same
filtered fetch. -/
theorem aggregation_exact_witness :
    aggregationResult aggStore 0 "p" "v" = .arr [JVal.num 1, JVal.num 2] ∧
    ([["p/v/a.json"], ["p/v/b.txt"], ["p/v/c.json"]] :
        List (List String)).flatten = keysUnder aggStore ("p" ++ "/" ++ "v" ++ "/") ∧
    aggregatePages aggStore [["p/v/a.json"], ["p/v/b.txt"], ["p/v/c.json"]] =
      ((keysUnder aggStore ("p" ++ "/" ++ "v" ++ "/")).filter
          (fun k => strEndsWith k ".json")).map
        (fun k => (getJson aggStore k).getD .null) :=
  ⟨rfl, rfl,
   (aggregation_exact aggStore 0 "p" "v").2
     [["p/v/a.json"], ["p/v/b.txt"], ["p/v/c.json"]] rfl⟩

/-- Every event the expiry block emits is a ticket creation. -/
theorem expiryStep_events (env : Env) (body : Params) (i : Int) :
    ∀ e ∈ (expiryStep env body i).1, ∃ t, e = Event.createTicket t := by
  intro e he
  unfold expiryStep at he
  rcases hg : getJson env.storage (expiry body.project body.version) with _ | info
  · rw [hg] at he; simp at he
  · rw [hg] at he
    cases info with
    | null => simp at he
    | obj fs =>
      dsimp only at he
      rcases hf : JVal.getField (.obj fs) "expires_in" with _ | w
      · rw [hf] at he; simp at he
      · rw [hf] at he
        cases w with
        | num d =>
          dsimp only at he
          by_cases hok : resOk env.ticketStatus
          · rw [if_pos hok] at he
            simp at he
            exact ⟨_, he⟩
          · rw [if_neg hok] at he
            simp at he
            exact ⟨_, he⟩
        | null => simp at he
        | bool b => simp at he
        | str s => simp at he
        | arr xs => simp at he
        | obj gs => simp at he
    | bool b => simp [JVal.getField] at he
    | num n => simp [JVal.getField] at he
    | str s => simp [JVal.getField] at he
    | arr xs => simp [JVal.getField] at he

/-- Every event the permissions block emits is the put of the supplied
permissions at the project's permissions path. -/
theorem permStep_events (env : Env) (body : Params) (evs : List Event)
    (h : permStep env body = .ok evs) :
    ∀ e ∈ evs, e = Event.put (permissions body.project) body.permissions := by
  unfold permStep at h
  by_cases hov : body.overwrite_permissions = true
  · rw [if_pos hov] at h
    cases h
    simp
  · rw [if_neg hov] at h
    rcases hl : List.lookup (permissions body.project) env.storage with _ | w
    · rw [hl] at h
      by_cases h4 : (env.headStatus (permissions body.project) == 404) = true
      · rw [if_pos h4] at h
        cases h
        simp
      · rw [if_neg h4] at h
        cases h
    · rw [hl] at h
      cases h
      simp

/-- Every event the latest-pointer block emits is a put. -/
theorem latestStep_events (st : Storage) (p v : String) (i : Int) (b : Bool)
    (evs : List Event) (h : latestStep st p v i b = .ok evs) :
    ∀ e ∈ evs, ∃ k x, e = Event.put k x := by
  unfold latestStep at h
  revert h
  cases b <;>
  · intro h
    dsimp only at h
    generalize hc1 : fill_latest st (latestPersistent p) _ _ = r1 at h
    cases r1 with
    | error m => cases h
    | ok e1 =>
      generalize hc2 : fill_latest st (latestAll p) v i = r2 at h
      cases r2 with
      | error m => cases h
      | ok e2 =>
        cases h
        intro e he
        rcases List.mem_append.mp he with h1 | h2
        · exact ⟨_, _, fill_latest_events st (latestPersistent p) _ _ e1 hc1 e h1⟩
        · exact ⟨_, _, fill_latest_events st (latestAll p) v i e2 hc2 e h2⟩

/-- On a failed run every event of the trace is a put or a ticket
creation, unless the failure is the issue-close one: the close at line
209 comes after the `Promise.all` barrier and the lock deletion, so a run
failing there has the barrier and the lock deletion in its trace; the
closeIssue event itself appears on no failed run. -/
theorem coreRun_error_events (env : Env) (body : Params) (msg : String)
    (h : (coreRun env body).2 = some msg) :
    ∀ e ∈ (coreRun env body).1,
      (∃ k x, e = Event.put k x) ∨ (∃ t, e = Event.createTicket t) ∨
      (msg = closeFailMsg ∧
        (e = Event.awaitWrites ∨
          e = Event.deleteObj (lock body.project body.version))) := by
  intro e he
  unfold coreRun at he
  by_cases hl : (List.lookup (lock body.project body.version) env.storage).isNone = true
  · rw [if_pos hl] at he
    simp at he
  · rw [if_neg hl] at he
    rcases hstep : expiryStep env body env.now with ⟨evs1, r⟩
    rw [hstep] at he
    cases r with
    | error m =>
      dsimp only at he
      exact Or.inr (Or.inl (expiryStep_events env body env.now e (by rw [hstep]; exact he)))
    | ok pr =>
      rcases pr with ⟨hx, vm⟩
      dsimp only at he
      rcases hperm : permStep env body with m | permEvs
      · rw [hperm] at he
        dsimp only at he
        rcases List.mem_append.mp he with h1 | h2
        · exact Or.inr (Or.inl (expiryStep_events env body env.now e (by rw [hstep]; exact h1)))
        · simp at h2
          rcases h2 with h2 | h2 <;> exact Or.inl ⟨_, _, h2⟩
      · rw [hperm] at he
        rcases hlat : latestStep env.storage body.project body.version env.now hx
            with m | latEvs
        · rw [hlat] at he
          dsimp only at he
          rcases List.mem_append.mp he with h1 | h2
          · rcases List.mem_append.mp h1 with h3 | h4
            · exact Or.inr (Or.inl (expiryStep_events env body env.now e (by rw [hstep]; exact h3)))
            · simp at h4
              rcases h4 with h4 | h4 <;> exact Or.inl ⟨_, _, h4⟩
          · exact Or.inl ⟨_, _, permStep_events env body permEvs hperm e h2⟩
        · rw [hlat] at he
          dsimp only at he
          unfold coreRun at h
          rw [if_neg hl, hstep] at h
          dsimp only at h
          rw [hperm, hlat] at h
          dsimp only at h
          by_cases hcf : env.closeIssueFails = true
          · rw [if_pos hcf] at he h
            dsimp only at he h
            have hmsg : msg = closeFailMsg := by
              injection h with h2
              exact h2.symm
            rcases List.mem_append.mp he with h1 | h2
            · rcases List.mem_append.mp h1 with h3 | h4
              · rcases List.mem_append.mp h3 with h5 | h6
                · rcases List.mem_append.mp h5 with h7 | h8
                  · exact Or.inr (Or.inl (expiryStep_events env body env.now e
                      (by rw [hstep]; exact h7)))
                  · simp at h8
                    rcases h8 with h8 | h8 <;> exact Or.inl ⟨_, _, h8⟩
                · exact Or.inl ⟨_, _, permStep_events env body permEvs hperm e h6⟩
              · exact Or.inl (latestStep_events env.storage body.project
                  body.version env.now hx latEvs hlat e h4)
            · simp at h2
              rcases h2 with h2 | h2
              · exact Or.inr (Or.inr ⟨hmsg, Or.inl h2⟩)
              · exact Or.inr (Or.inr ⟨hmsg, Or.inr h2⟩)
          · rw [if_neg hcf] at h
            dsimp only at h
            cases h

/-- A run environment holding only the lock, in which every step succeeds
except the final issue-close call, which throws. -/
def closeFailEnv : Env :=
  { storage := [(lock "p" "v", JVal.obj [])], now := 50, pageCap := 0
    headStatus := fun _ => 404, ticketStatus := 201, ticketNumber := 7
    closeIssueFails := true, commentPostFails := false }

/-- Counterexample to C5: a run in which the issue-close call throws is a
failed run (reported with a comment) whose trace nevertheless contains the
lock deletion, because line 209 places the close after the lock deletion
at line 204 — a failed run does not always leave the lock in storage. -/
theorem close_failure_run_deletes_lock :
    (coreRun closeFailEnv sampleBody).2 = some closeFailMsg ∧
    Event.deleteObj (lock "p" "v") ∈
      (runProcess { hasR2Credentials := true, hasBotToken := true, argc := 6 }
        closeFailEnv sampleBody).1 ∧
    Event.comment closeFailMsg ∈
      (runProcess { hasR2Credentials := true, hasBotToken := true, argc := 6 }
        closeFailEnv sampleBody).1 := by
  have htr : (runProcess { hasR2Credentials := true, hasBotToken := true, argc := 6 }
      closeFailEnv sampleBody).1 =
      [Event.put (versionMetadata "p" "v")
          (metaToJson { upload_time := toISOString 5, index_time := toISOString 50 }),
       Event.put (aggregated "p" "v") (JVal.arr []),
       Event.put (permissions "p") sampleBody.permissions,
       Event.put (latestPersistent "p") (formatLatest "v" 50),
       Event.put (latestAll "p") (formatLatest "v" 50),
       Event.awaitWrites,
       Event.deleteObj (lock "p" "v"),
       Event.comment closeFailMsg] := rfl
  refine ⟨rfl, ?_, ?_⟩ <;> rw [htr] <;> simp

/-- C5 as amended: when any step after the setup throws, the remaining
steps are skipped (in particular the issue is never closed), the
exception's message is posted as a comment, and the lock object is not
deleted whenever the failure occurred at any step other than the final
issue-close call; only that call runs after the lock deletion, so only its
failure leaves a failed run with the lock already deleted. -/
theorem failure_skips_rest_posts_comment (c : Config) (env : Env) (body : Params)
    (msg : String) (hs : setupOk c = true) (hcp : env.commentPostFails = false)
    (h : (coreRun env body).2 = some msg) :
    (runProcess c env body).1 = (coreRun env body).1 ++ [Event.comment msg] ∧
    Event.closeIssue ∉ (runProcess c env body).1 ∧
    (msg ≠ closeFailMsg → ∀ k, Event.deleteObj k ∉ (runProcess c env body).1) := by
  rcases hcr : coreRun env body with ⟨tr, err⟩
  rw [hcr] at h
  dsimp only at h
  subst h
  have hrp : runProcess c env body = (tr ++ [Event.comment msg], 0) := by
    unfold runProcess
    rw [if_pos hs, hcr, hcp]
    simp
  refine ⟨by simp [hrp, hcr], fun hk => ?_, fun hne k hk => ?_⟩
  · rw [hrp] at hk
    rcases List.mem_append.mp hk with h1 | h2
    · rcases coreRun_error_events env body msg (by rw [hcr]) Event.closeIssue
          (by rw [hcr]; exact h1) with ⟨_, _, hx⟩ | ⟨_, hx⟩ | ⟨_, hor⟩
      · cases hx
      · cases hx
      · rcases hor with hx | hx <;> cases hx
    · simp at h2
  · rw [hrp] at hk
    rcases List.mem_append.mp hk with h1 | h2
    · rcases coreRun_error_events env body msg (by rw [hcr]) (Event.deleteObj k)
          (by rw [hcr]; exact h1) with ⟨_, _, hx⟩ | ⟨_, hx⟩ | ⟨hmsg, hor⟩
      · cases hx
      · cases hx
      · exact hne hmsg
    · simp at h2

/-- Witness for C5 as amended: with the lock absent the run fails before
any write, the comment with the lock error is appended, the issue is not
closed, and (the failure not being the close one) no lock deletion
appears. -/
theorem failure_skips_rest_posts_comment_witness :
    setupOk { hasR2Credentials := true, hasBotToken := true, argc := 6 } = true ∧
    emptyEnv.commentPostFails = false ∧
    (coreRun emptyEnv sampleBody).2 = some lockFailMsg ∧
    ((runProcess { hasR2Credentials := true, hasBotToken := true, argc := 6 }
        emptyEnv sampleBody).1 =
      (coreRun emptyEnv sampleBody).1 ++ [Event.comment lockFailMsg] ∧
    Event.closeIssue ∉
      (runProcess { hasR2Credentials := true, hasBotToken := true, argc := 6 }
        emptyEnv sampleBody).1 ∧
    (lockFailMsg ≠ closeFailMsg → ∀ k, Event.deleteObj k ∉
      (runProcess { hasR2Credentials := true, hasBotToken := true, argc := 6 }
        emptyEnv sampleBody).1)) :=
  ⟨rfl, rfl, rfl,
   failure_skips_rest_posts_comment _ emptyEnv sampleBody lockFailMsg rfl rfl rfl⟩

/-- C8: a successful run's trace ends with the `Promise.all` barrier, then
the lock deletion, then the issue closing, in that order; everything
before the barrier is a put or a ticket creation, so all scheduled writes
are awaited together before the lock is deleted, and the lock is deleted
before the ticket is closed. -/
theorem success_orders_commit_unlock_close (env : Env) (body : Params)
    (h : (coreRun env body).2 = none) :
    ∃ pre, (coreRun env body).1 =
        pre ++ [Event.awaitWrites,
          Event.deleteObj (lock body.project body.version), Event.closeIssue] ∧
      ∀ e ∈ pre, (∃ k x, e = Event.put k x) ∨ (∃ t, e = Event.createTicket t) := by
  unfold coreRun at h ⊢
  by_cases hl : (List.lookup (lock body.project body.version) env.storage).isNone = true
  · rw [if_pos hl] at h
    cases h
  · rw [if_neg hl] at h ⊢
    rcases hstep : expiryStep env body env.now with ⟨evs1, r⟩
    rw [hstep] at h
    cases r with
    | error m => simp at h
    | ok pr =>
      rcases pr with ⟨hx, vm⟩
      dsimp only at h ⊢
      cases hperm : permStep env body with
      | error m =>
        rw [hperm] at h
        simp at h
      | ok permEvs =>
        rw [hperm] at h
        cases hlat : latestStep env.storage body.project body.version env.now hx with
        | error m =>
          rw [hlat] at h
          simp at h
        | ok latEvs =>
          rw [hlat] at h
          dsimp only at h ⊢
          by_cases hcf : env.closeIssueFails = true
          · rw [if_pos hcf] at h
            simp at h
          · rw [if_neg hcf] at h ⊢
            dsimp only at h ⊢
            refine ⟨(evs1 ++ [Event.put (versionMetadata body.project body.version)
                (metaToJson vm),
              Event.put (aggregated body.project body.version)
                (aggregationResult env.storage env.pageCap body.project body.version)])
              ++ permEvs ++ latEvs, by simp, ?_⟩
            intro e he
            rcases List.mem_append.mp he with h1 | h2
            · rcases List.mem_append.mp h1 with h3 | h4
              · rcases List.mem_append.mp h3 with h5 | h6
                · exact Or.inr (expiryStep_events env body env.now e (by rw [hstep]; exact h5))
                · simp at h6
                  rcases h6 with h6 | h6 <;> exact Or.inl ⟨_, _, h6⟩
              · exact Or.inl ⟨_, _, permStep_events env body permEvs hperm e h4⟩
            · exact Or.inl (latestStep_events env.storage body.project body.version
                env.now hx latEvs hlat e h2)

/-- A run environment holding only the lock for p/v, under which the whole
run succeeds. -/
def successEnv : Env :=
  { storage := [(lock "p" "v", JVal.obj [])], now := 50, pageCap := 0
    headStatus := fun _ => 404, ticketStatus := 201, ticketNumber := 7, closeIssueFails := false
    commentPostFails := false }

/-- Witness for C8: a concrete successful run ends with the barrier, the
lock deletion and the closing in order. -/
theorem success_orders_commit_unlock_close_witness :
    (coreRun successEnv sampleBody).2 = none ∧
    (∃ pre, (coreRun successEnv sampleBody).1 =
        pre ++ [Event.awaitWrites,
          Event.deleteObj (lock sampleBody.project sampleBody.version),
          Event.closeIssue] ∧
      ∀ e ∈ pre, (∃ k x, e = Event.put k x) ∨ (∃ t, e = Event.createTicket t)) :=
  ⟨rfl, success_orders_commit_unlock_close successEnv sampleBody rfl⟩

/-- A startup configuration with credentials, token and four arguments. -/
def okConfig : Config := { hasR2Credentials := true, hasBotToken := true, argc := 6 }

/-- A startup configuration missing the bot token. -/
def badConfig : Config := { hasR2Credentials := true, hasBotToken := false, argc := 6 }

/-- A run environment with no lock object (so the run fails) whose
failure-comment POST itself throws. -/
def commentFailEnv : Env :=
  { storage := [], now := 50, pageCap := 0, headStatus := fun _ => 404
    ticketStatus := 201, ticketNumber := 7, closeIssueFails := false
    commentPostFails := true }

/-- Counterexample to C9: a run that reaches the core logic (setup passes)
but whose failure-comment POST throws finishes with a nonzero exit code,
so setup errors are not the only source of a nonzero exit. -/
theorem core_reaching_run_nonzero_exit :
    setupOk okConfig = true ∧
      (runProcess okConfig commentFailEnv sampleBody).2 ≠ 0 :=
  ⟨rfl, by decide⟩

/-- C9 as amended: when setup passes and the failure-comment POST does not
itself throw, the process exits with the success code even if a step
failed and was reported via a ticket comment; a failed setup guard exits
nonzero. -/
theorem exit_code_amended (c : Config) (env : Env) (body : Params) :
    (setupOk c = true → env.commentPostFails = false →
      (runProcess c env body).2 = 0) ∧
    (setupOk c = false → (runProcess c env body).2 = 1) := by
  constructor
  · intro hs hc
    unfold runProcess
    rw [if_pos hs]
    rcases coreRun env body with ⟨tr, err⟩
    cases err with
    | none => rfl
    | some m => simp [hc]
  · intro hs
    simp [runProcess, hs]

/-- Witness for C9 as amended: a failed run whose comment POST succeeds
exits zero; a missing bot token exits nonzero. -/
theorem exit_code_amended_witness :
    (runProcess okConfig emptyEnv sampleBody).2 = 0 ∧
    (runProcess badConfig emptyEnv sampleBody).2 = 1 :=
  ⟨(exit_code_amended okConfig emptyEnv sampleBody).1 rfl rfl,
   (exit_code_amended badConfig emptyEnv sampleBody).2 rfl⟩

/-- C10: when the run failed and the failure-comment POST throws, the
final success-code assignment is never reached and the process keeps the
initial nonzero exit code. -/
theorem comment_post_failure_keeps_nonzero_exit (c : Config) (env : Env)
    (body : Params) (hs : setupOk c = true)
    (herr : ((coreRun env body).2).isSome = true)
    (hc : env.commentPostFails = true) :
    (runProcess c env body).2 = 1 := by
  unfold runProcess
  rw [if_pos hs]
  rcases hcr : coreRun env body with ⟨tr, err⟩
  rw [hcr] at herr
  cases err with
  | none => simp at herr
  | some m => simp [hc]

/-- Witness for C10: the lock-absent failure with a throwing comment POST
leaves exit code 1. -/
theorem comment_post_failure_keeps_nonzero_exit_witness :
    setupOk okConfig = true ∧
    ((coreRun commentFailEnv sampleBody).2).isSome = true ∧
    commentFailEnv.commentPostFails = true ∧
    (runProcess okConfig commentFailEnv sampleBody).2 = 1 :=
  ⟨rfl, rfl, rfl,
   comment_post_failure_keeps_nonzero_exit okConfig commentFailEnv sampleBody
     rfl rfl rfl⟩

end Gypsum
